import Mathlib

/-!
Shallow embedding of the ticket-annulment approval bot (src/index.js).

The bot keeps an in-memory registry `ticketsState` mapping the id of the
interactive card message to the request's lifecycle state, applies vote
events from `callback_query` updates, persists an approved request to a
month-partitioned ledger exactly on quorum, runs a two-step reject/comment
handshake through the `pendingComments` correlation map, and schedules a
one-shot reminder per request.
-/

namespace AnnulBot

/-- The whitespace characters relevant to the regular expressions and
`String.prototype.trim` in the source (space, tab, LF, CR, VT, FF, NBSP). -/
def isWs (c : Char) : Bool :=
  c == ' ' || c == '\t' || c == '\n' || c == '\r' ||
    c.toNat == 11 || c.toNat == 12 || c.toNat == 160

/-- `String.prototype.trim`. -/
def trimStr (s : String) : String :=
  String.mk (((s.data.dropWhile fun c => isWs c).reverse.dropWhile fun c => isWs c).reverse)

/-- Case folding as case-insensitive regex matching applies it to the
alphabets appearing in the source's labels (ASCII and Cyrillic). -/
def lowerChar (c : Char) : Char :=
  if 65 ≤ c.toNat ∧ c.toNat ≤ 90 then Char.ofNat (c.toNat + 32)
  else if 1040 ≤ c.toNat ∧ c.toNat ≤ 1071 then Char.ofNat (c.toNat + 32)
  else if c.toNat == 1025 then Char.ofNat 1105
  else c

/-- Case-insensitive literal match of `pat` at the head of `s`. -/
def startsWithCI : List Char → List Char → Bool
  | [], _ => true
  | _ :: _, [] => false
  | p :: ps, c :: cs => (lowerChar p == lowerChar c) && startsWithCI ps cs

/-- The scan performed by `text.match(new RegExp(label + ":\\s*([^\\n]+)", "i"))`
in `parsePayload`: at each position try to match the label literally
(case-insensitively), then greedy whitespace, then a non-empty run of
non-newline characters (with the regex engine's backtracking into the
whitespace, which can only ever capture text that trims to the empty
string). -/
def grabCore (pat : List Char) : List Char → Option (List Char)
  | [] => none
  | c :: cs =>
    if startsWithCI pat (c :: cs) then
      let s := (c :: cs).drop pat.length
      let rest := s.dropWhile fun ch => isWs ch
      if rest ≠ [] then some (rest.takeWhile fun ch => ch ≠ '\n')
      else if s.any fun ch => ch ≠ '\n' then some []
      else grabCore pat cs
    else grabCore pat cs

/-- `grab` of `parsePayload`: the captured group, trimmed, or `''` when the
regex does not match. -/
def grab (label text : String) : String :=
  match grabCore (label ++ ":").data text.data with
  | none => ""
  | some cap => trimStr (String.mk cap)

/-- The structured fields extracted from a `#аннулировать` submission. -/
structure Payload where
  ticket : String
  violation : String
  reason : String
  amount : String
  operator : String
deriving DecidableEq, Repr

/-- `parsePayload`: `null` when the text is empty or any of the three
mandatory fields is missing. -/
def parsePayload (text : String) : Option Payload :=
  if text = "" then none
  else
    let ticket := grab "Тикет" text
    let violation := grab "Нарушение" text
    let reason := grab "Причина" text
    let amount := grab "Сумма" text
    let operator := grab "Оператор" text
    if ticket = "" ∨ violation = "" ∨ reason = "" then none
    else some ⟨ticket, violation, reason, amount, operator⟩

/-- A Telegram user as the handlers see it (`query.from` / `msg.from`).
`username` is absent for profiles without a username. -/
structure User where
  id : Nat
  username : Option String
  firstName : String
  lastName : String
deriving DecidableEq, Repr

/-- `fullName`. -/
def fullName (u : User) : String :=
  let s := String.intercalate " " (([u.firstName, u.lastName]).filter fun x => x != "")
  if s = "" then "сотрудник" else s

/-- The voter profile snapshot stored into `approvals`; a missing username
is stored as the empty string (`user.username || ''`). -/
structure Profile where
  id : Nat
  username : String
  name : String
deriving DecidableEq, Repr

def profileOf (u : User) : Profile :=
  ⟨u.id, u.username.getD "", fullName u⟩

/-- `a.username || a.name`, as used for the persisted approver list. -/
def displayName (p : Profile) : String :=
  if p.username ≠ "" then p.username else p.name

/-- Identity and policy configuration (`APPROVER_LIST` and `REQUIRED`). -/
structure Config where
  approvers : List String
  required : Nat
deriving DecidableEq, Repr

/-- `String.prototype.split` with a one-character separator: split on every
occurrence, keeping empty pieces. -/
def splitOnChar (sep : Char) : List Char → List (List Char)
  | [] => [[]]
  | c :: cs =>
    match splitOnChar sep cs with
    | [] => [[]]
    | g :: gs => if c = sep then [] :: g :: gs else (c :: g) :: gs

/-- `APPROVERS.split(',').map(s => s.trim()).filter(Boolean)`. -/
def mkApproverList (raw : String) : List String :=
  ((splitOnChar ',' raw.data).map fun l => trimStr (String.mk l)).filter fun s => s != ""

/-- `PING_TIMEOUT_MS = 2 * 60 * 60 * 1000` (two hours). -/
def PING_TIMEOUT_MS : Nat := 2 * 60 * 60 * 1000

/-- Per-request lifecycle state, an entry of `ticketsState`. -/
structure RequestState where
  chatId : Nat
  ticket : String
  violation : String
  reason : String
  amount : String
  operator : String
  approvals : List (Nat × Profile)
  voters : List Nat
  resolved : Bool
  rejected : Bool
  rejectComment : Option String := none
deriving DecidableEq, Repr

/-- Association-list lookup (JS `Map.get`). -/
def lookupA {κ α : Type} [DecidableEq κ] : List (κ × α) → κ → Option α
  | [], _ => none
  | e :: es, k => if e.1 = k then some e.2 else lookupA es k

/-- Association-list update (JS `Map.set`: replace in place, else append). -/
def setA {κ α : Type} [DecidableEq κ] : List (κ × α) → κ → α → List (κ × α)
  | [], k, v => [(k, v)]
  | e :: es, k, v => if e.1 = k then (k, v) :: es else e :: setA es k v

/-- Association-list removal (JS `Map.delete`). -/
def delA {κ α : Type} [DecidableEq κ] : List (κ × α) → κ → List (κ × α)
  | [], _ => []
  | e :: es, k => if e.1 = k then es else e :: delA es k

/-- A `pendingComments` entry: the force-reply prompt and the request card. -/
structure PendEntry where
  promptMsgId : Nat
  ticketMsgId : Nat
deriving DecidableEq, Repr

abbrev Reg := List (Nat × RequestState)

abbrev Pend := List ((Nat × Nat) × PendEntry)

/-- The two process-wide maps: `ticketsState` and `pendingComments`. -/
structure Sys where
  reg : Reg
  pend : Pend
deriving DecidableEq, Repr

def pad2 (n : Nat) : String :=
  if n < 10 then "0" ++ toString n else toString n

/-- `monthSheetName`: the `YYYY-MM` partition title for the given Helsinki
local date. -/
def monthSheetName (year month : Nat) : String :=
  toString year ++ "-" ++ pad2 month

/-- The row handed to `sheet.addRow` on quorum, together with the partition
(sheet title) it is addressed to. -/
structure LedgerRecord where
  ticket : String
  violation : String
  reason : String
  amount : String
  operator : String
  status : String
  approvedBy : String
  date : String
  sheet : String
deriving DecidableEq, Repr

def mkRecord (st : RequestState) (year month : Nat) (nowStr : String) : LedgerRecord :=
  { ticket := st.ticket
    violation := st.violation
    reason := st.reason
    amount := st.amount
    operator := st.operator
    status := "Одобрено"
    approvedBy := String.intercalate ", " (st.approvals.map fun e => displayName e.2)
    date := nowStr
    sheet := monthSheetName year month }

inductive VoteKind where
  | approve
  | reject
deriving DecidableEq, Repr

inductive VoteOutcome where
  | Ignored
  | Unauthorized
  | AlreadyVoted
  | ApprovalRecorded (progress : String)
  | QuorumReached
  | RejectRecorded
deriving DecidableEq, Repr

/-- Result of one `callback_query` event: the two maps afterwards, the
outcome signalled to the voter, the `addRow` attempts emitted (tagged with
the card id), and whether a persistence error was surfaced to the chat. -/
structure VoteRes where
  reg : Reg
  pend : Pend
  outcome : VoteOutcome
  appends : List (Nat × LedgerRecord)
  errorReported : Bool
deriving DecidableEq, Repr

/-- The `callback_query` handler. `year`/`month`/`nowStr` are the Helsinki
date at processing time, `appendOk` tells whether the external ledger append
succeeds, `promptMsgId` the id of the force-reply prompt sent on reject. -/
def castVote (cfg : Config) (year month : Nat) (nowStr : String) (appendOk : Bool)
    (promptMsgId : Nat) (reg : Reg) (pend : Pend)
    (chatId msgId : Nat) (u : User) (kind : VoteKind) : VoteRes :=
  match lookupA reg msgId with
  | none => ⟨reg, pend, .Ignored, [], false⟩
  | some st =>
    if st.resolved then ⟨reg, pend, .Ignored, [], false⟩
    else
      let username := u.username.getD ""
      let prof : Profile := profileOf u
      if cfg.approvers ≠ [] ∧ username ∉ cfg.approvers then
        ⟨reg, pend, .Unauthorized, [], false⟩
      else if u.id ∈ st.voters then
        ⟨reg, pend, .AlreadyVoted, [], false⟩
      else
        match kind with
        | .approve =>
          let st1 := { st with voters := st.voters ++ [u.id],
                               approvals := st.approvals ++ [(u.id, prof)] }
          if cfg.required ≤ st1.approvals.length then
            let st2 := { st1 with resolved := true }
            ⟨setA reg msgId st2, pend, .QuorumReached,
              [(msgId, mkRecord st2 year month nowStr)], !appendOk⟩
          else
            ⟨setA reg msgId st1, pend,
              .ApprovalRecorded (toString st1.approvals.length ++ "/" ++ toString cfg.required),
              [], false⟩
        | .reject =>
          let st1 := { st with voters := st.voters ++ [u.id],
                               rejected := true, resolved := true }
          ⟨setA reg msgId st1, setA pend (chatId, u.id) ⟨promptMsgId, msgId⟩,
            .RejectRecorded, [], false⟩

/-- An inbound plain message, as the `message` handler sees it. -/
structure IncomingMsg where
  chatId : Nat
  fromId : Nat
  msgId : Nat
  replyTo : Option Nat
  text : String
deriving DecidableEq, Repr

inductive MsgOutcome where
  | NoCorrelation
  | WrongReply
  | StaleDropped
  | Finalized (comment : String)
deriving DecidableEq, Repr

structure MsgRes where
  reg : Reg
  pend : Pend
  outcome : MsgOutcome
deriving DecidableEq, Repr

/-- The `message` handler: correlate a reply with a pending reject comment. -/
def handleMessage (reg : Reg) (pend : Pend) (m : IncomingMsg) : MsgRes :=
  let key : Nat × Nat := (m.chatId, m.fromId)
  match lookupA pend key with
  | none => ⟨reg, pend, .NoCorrelation⟩
  | some wait =>
    if m.replyTo ≠ some wait.promptMsgId then ⟨reg, pend, .WrongReply⟩
    else
      match lookupA reg wait.ticketMsgId with
      | none => ⟨reg, delA pend key, .StaleDropped⟩
      | some st =>
        let comment := trimStr m.text
        ⟨setA reg wait.ticketMsgId { st with rejectComment := some comment },
          delA pend key, .Finalized comment⟩

inductive SubOutcome where
  | Malformed
  | Created (msgId : Nat)
deriving DecidableEq, Repr

/-- The state registered for a freshly created request card. -/
def freshState (chatId : Nat) (d : Payload) : RequestState :=
  { chatId := chatId, ticket := d.ticket, violation := d.violation, reason := d.reason,
    amount := d.amount, operator := d.operator,
    approvals := [], voters := [], resolved := false, rejected := false }

/-- Result of the `#аннулировать` handler: the registry afterwards, the
outcome, and the deferred reminder timers scheduled (card id, delay ms). -/
structure SubRes where
  reg : Reg
  outcome : SubOutcome
  scheduled : List (Nat × Nat)
deriving DecidableEq, Repr

/-- The `#аннулировать` handler. `raw` is the text captured after the
hashtag; `newMsgId` the id the transport assigns to the posted card. -/
def handleSubmission (reg : Reg) (chatId : Nat) (raw : String) (newMsgId : Nat) : SubRes :=
  match parsePayload (trimStr raw) with
  | none => ⟨reg, .Malformed, []⟩
  | some d => ⟨setA reg newMsgId (freshState chatId d), .Created newMsgId,
               [(newMsgId, PING_TIMEOUT_MS)]⟩

/-- `makeCardText` (lines are built then `.filter(Boolean)`-ed). -/
def makeCardText (st : RequestState) (progress : Option String) (footer : String) : String :=
  String.intercalate "\n"
    (([ "<b>🧾 Аннулирование штрафа</b>", "",
        "<b>Тикет:</b> " ++ st.ticket,
        "<b>Тип нарушения:</b> " ++ st.violation,
        "<b>Основание:</b> " ++ st.reason,
        if st.amount ≠ "" then "<b>Сумма:</b> " ++ st.amount else "",
        if st.operator ≠ "" then "<b>Оператор:</b> " ++ st.operator else "",
        "",
        match progress with
        | some p => "<b>Статус:</b> " ++ p
        | none => "",
        footer ]).filter fun l => l != "")

/-- The configured approvers that have not yet approved
(`APPROVER_LIST.filter(u => !approvals.values().some(p => p.username === u))`). -/
def pendingApprovers (cfg : Config) (st : RequestState) : List String :=
  cfg.approvers.filter fun u => ! (st.approvals.any fun e => e.2.username == u)

/-- The reminder footer text. -/
def reminderFooter (pending : List String) : String :=
  let names := String.intercalate ", " (pending.map fun u => "@" ++ u)
  "⏰ <i>Напоминание:</i> не хватает одобрения. Прошу " ++
    (if names = "" then "утверждающих" else names) ++ " подтвердить."

/-- The deferred reminder callback at fire time: the message it sends, if
any. It re-reads the registry, is inert on an absent or resolved request,
and returns without sending when no configured approver is outstanding. -/
def reminderCheck (cfg : Config) (reg : Reg) (msgId : Nat) : Option String :=
  match lookupA reg msgId with
  | none => none
  | some st =>
    if st.resolved then none
    else
      let pending := pendingApprovers cfg st
      if pending = [] then none
      else some (makeCardText st none (reminderFooter pending))

/-- A vote event together with its environment (date, ledger availability,
prompt id the transport would assign). -/
structure VoteEv where
  chatId : Nat
  msgId : Nat
  user : User
  kind : VoteKind
  promptMsgId : Nat
  appendOk : Bool
  year : Nat
  month : Nat
  nowStr : String
deriving Repr

def voteStepFull (cfg : Config) (s : Sys) (e : VoteEv) : VoteRes :=
  castVote cfg e.year e.month e.nowStr e.appendOk e.promptMsgId s.reg s.pend
    e.chatId e.msgId e.user e.kind

def voteStep (cfg : Config) (s : Sys) (e : VoteEv) : Sys :=
  ⟨(voteStepFull cfg s e).reg, (voteStepFull cfg s e).pend⟩

def runVotes (cfg : Config) (s : Sys) : List VoteEv → Sys
  | [] => s
  | e :: es => runVotes cfg (voteStep cfg s e) es

/-- All `addRow` attempts emitted over a sequence of vote events. -/
def runVotesLog (cfg : Config) (s : Sys) : List VoteEv → List (Nat × LedgerRecord)
  | [] => []
  | e :: es => (voteStepFull cfg s e).appends ++ runVotesLog cfg (voteStep cfg s e) es

/-- The append attempts addressed to request card `m`. -/
def appendsFor (m : Nat) (log : List (Nat × LedgerRecord)) : List (Nat × LedgerRecord) :=
  log.filter fun r => r.1 == m

/-- Any inbound event touching the two shared maps. -/
inductive Event where
  | vote (e : VoteEv)
  | reply (m : IncomingMsg)
  | remind (msgId : Nat)

def sysStep (cfg : Config) (s : Sys) : Event → Sys
  | .vote e => voteStep cfg s e
  | .reply m =>
    let r := handleMessage s.reg s.pend m
    ⟨r.reg, r.pend⟩
  | .remind _ => s

def runSys (cfg : Config) (s : Sys) : List Event → Sys
  | [] => s
  | ev :: evs => runSys cfg (sysStep cfg s ev) evs

/-- The central lifecycle invariant: a request is resolved exactly when
quorum has been reached or it has been rejected. -/
def quorumInv (cfg : Config) (st : RequestState) : Prop :=
  st.resolved = (decide (cfg.required ≤ st.approvals.length) || st.rejected)

/-- Every approval belongs to a recorded voter, and approver ids are
pairwise distinct. -/
def votersInv (st : RequestState) : Prop :=
  (∀ a ∈ st.approvals, a.1 ∈ st.voters) ∧ (st.approvals.map Prod.fst).Nodup

/-- No pending-comment entry references request card `t`. -/
def noPendFor (t : Nat) (pend : Pend) : Prop :=
  ∀ kv ∈ pend, kv.2.ticketMsgId ≠ t

/-! ### Association-map lemmas -/

theorem lookupA_setA_self {κ α : Type} [DecidableEq κ] (l : List (κ × α)) (k : κ) (v : α) :
    lookupA (setA l k v) k = some v := by
  induction l with
  | nil => simp [setA, lookupA]
  | cons e es ih =>
    by_cases h : e.1 = k
    · simp [setA, h, lookupA]
    · simp [setA, h, lookupA, ih]

theorem lookupA_setA_ne {κ α : Type} [DecidableEq κ] (l : List (κ × α)) (k k' : κ) (v : α)
    (h : k' ≠ k) : lookupA (setA l k v) k' = lookupA l k' := by
  have hk : k ≠ k' := Ne.symm h
  induction l with
  | nil => simp [setA, lookupA, hk]
  | cons e es ih =>
    by_cases he : e.1 = k
    · subst he
      simp [setA, lookupA, hk]
    · simp [setA, he, lookupA, ih]

theorem mem_setA {κ α : Type} [DecidableEq κ] {l : List (κ × α)} {k : κ} {v : α} {kv : κ × α}
    (h : kv ∈ setA l k v) : kv = (k, v) ∨ kv ∈ l := by
  induction l with
  | nil => simpa [setA] using h
  | cons e es ih =>
    by_cases he : e.1 = k
    · rw [setA, if_pos he] at h
      rcases List.mem_cons.mp h with h1 | h1
      · exact Or.inl h1
      · exact Or.inr (List.mem_cons_of_mem _ h1)
    · rw [setA, if_neg he] at h
      rcases List.mem_cons.mp h with h1 | h1
      · exact Or.inr (h1 ▸ List.mem_cons_self _ _)
      · rcases ih h1 with h2 | h2
        · exact Or.inl h2
        · exact Or.inr (List.mem_cons_of_mem _ h2)

theorem mem_setA_of_nodup {κ α : Type} [DecidableEq κ] {l : List (κ × α)} {k : κ} {v : α}
    {kv : κ × α} (hnd : (l.map Prod.fst).Nodup) (h : kv ∈ setA l k v) :
    kv = (k, v) ∨ (kv ∈ l ∧ kv.1 ≠ k) := by
  induction l with
  | nil => simp [setA] at h; exact Or.inl h
  | cons e es ih =>
    rw [List.map_cons, List.nodup_cons] at hnd
    by_cases he : e.1 = k
    · rw [setA, if_pos he] at h
      rcases List.mem_cons.mp h with h1 | h1
      · exact Or.inl h1
      · refine Or.inr ⟨List.mem_cons_of_mem _ h1, fun hk => ?_⟩
        exact hnd.1 (he ▸ hk ▸ List.mem_map_of_mem Prod.fst h1)
    · rw [setA, if_neg he] at h
      rcases List.mem_cons.mp h with h1 | h1
      · exact Or.inr ⟨h1 ▸ List.mem_cons_self _ _, h1 ▸ he⟩
      · rcases ih hnd.2 h1 with h2 | h2
        · exact Or.inl h2
        · exact Or.inr ⟨List.mem_cons_of_mem _ h2.1, h2.2⟩

theorem mem_delA {κ α : Type} [DecidableEq κ] {l : List (κ × α)} {k : κ} {kv : κ × α}
    (h : kv ∈ delA l k) : kv ∈ l := by
  induction l with
  | nil => simp [delA] at h
  | cons e es ih =>
    by_cases he : e.1 = k
    · rw [delA, if_pos he] at h
      exact List.mem_cons_of_mem _ h
    · rw [delA, if_neg he] at h
      rcases List.mem_cons.mp h with h1 | h1
      · exact h1 ▸ List.mem_cons_self _ _
      · exact List.mem_cons_of_mem _ (ih h1)

theorem lookupA_mem {κ α : Type} [DecidableEq κ] {l : List (κ × α)} {k : κ} {v : α}
    (h : lookupA l k = some v) : (k, v) ∈ l := by
  induction l with
  | nil => simp [lookupA] at h
  | cons e es ih =>
    by_cases he : e.1 = k
    · rw [lookupA, if_pos he] at h
      have hev : e = (k, v) := by
        obtain ⟨a, b⟩ := e
        simp_all
      exact hev ▸ List.mem_cons_self _ _
    · rw [lookupA, if_neg he] at h
      exact List.mem_cons_of_mem _ (ih h)

/-! ### Branch lemmas for the `callback_query` handler -/

theorem castVote_none (cfg : Config) (year month : Nat) (nowStr : String) (appendOk : Bool)
    (promptMsgId : Nat) (reg : Reg) (pend : Pend) (chatId msgId : Nat) (u : User)
    (kind : VoteKind) (hl : lookupA reg msgId = none) :
    castVote cfg year month nowStr appendOk promptMsgId reg pend chatId msgId u kind =
      ⟨reg, pend, .Ignored, [], false⟩ := by
  simp [castVote, hl]

theorem castVote_resolved (cfg : Config) (year month : Nat) (nowStr : String) (appendOk : Bool)
    (promptMsgId : Nat) (reg : Reg) (pend : Pend) (chatId msgId : Nat) (u : User)
    (kind : VoteKind) (st : RequestState) (hl : lookupA reg msgId = some st)
    (hres : st.resolved = true) :
    castVote cfg year month nowStr appendOk promptMsgId reg pend chatId msgId u kind =
      ⟨reg, pend, .Ignored, [], false⟩ := by
  simp [castVote, hl, hres]

theorem castVote_unauthorized (cfg : Config) (year month : Nat) (nowStr : String)
    (appendOk : Bool) (promptMsgId : Nat) (reg : Reg) (pend : Pend) (chatId msgId : Nat)
    (u : User) (kind : VoteKind) (st : RequestState) (hl : lookupA reg msgId = some st)
    (hres : st.resolved = false)
    (hauth : cfg.approvers ≠ [] ∧ u.username.getD "" ∉ cfg.approvers) :
    castVote cfg year month nowStr appendOk promptMsgId reg pend chatId msgId u kind =
      ⟨reg, pend, .Unauthorized, [], false⟩ := by
  simp [castVote, hl, hres, hauth]

theorem castVote_alreadyVoted (cfg : Config) (year month : Nat) (nowStr : String)
    (appendOk : Bool) (promptMsgId : Nat) (reg : Reg) (pend : Pend) (chatId msgId : Nat)
    (u : User) (kind : VoteKind) (st : RequestState) (hl : lookupA reg msgId = some st)
    (hres : st.resolved = false)
    (hauth : ¬ (cfg.approvers ≠ [] ∧ u.username.getD "" ∉ cfg.approvers))
    (hvoted : u.id ∈ st.voters) :
    castVote cfg year month nowStr appendOk promptMsgId reg pend chatId msgId u kind =
      ⟨reg, pend, .AlreadyVoted, [], false⟩ := by
  simp [castVote, hl, hres, hauth, hvoted]

theorem castVote_approve_quorum (cfg : Config) (year month : Nat) (nowStr : String)
    (appendOk : Bool) (promptMsgId : Nat) (reg : Reg) (pend : Pend) (chatId msgId : Nat)
    (u : User) (st : RequestState) (hl : lookupA reg msgId = some st)
    (hres : st.resolved = false)
    (hauth : ¬ (cfg.approvers ≠ [] ∧ u.username.getD "" ∉ cfg.approvers))
    (hvoted : u.id ∉ st.voters)
    (hq : cfg.required ≤ st.approvals.length + 1) :
    castVote cfg year month nowStr appendOk promptMsgId reg pend chatId msgId u .approve =
      ⟨setA reg msgId { st with voters := st.voters ++ [u.id],
                                approvals := st.approvals ++ [(u.id, profileOf u)],
                                resolved := true },
        pend, .QuorumReached,
        [(msgId, mkRecord { st with voters := st.voters ++ [u.id],
                                    approvals := st.approvals ++ [(u.id, profileOf u)],
                                    resolved := true } year month nowStr)],
        !appendOk⟩ := by
  simp [castVote, hl, hres, hauth, hvoted, hq]

theorem castVote_approve_below (cfg : Config) (year month : Nat) (nowStr : String)
    (appendOk : Bool) (promptMsgId : Nat) (reg : Reg) (pend : Pend) (chatId msgId : Nat)
    (u : User) (st : RequestState) (hl : lookupA reg msgId = some st)
    (hres : st.resolved = false)
    (hauth : ¬ (cfg.approvers ≠ [] ∧ u.username.getD "" ∉ cfg.approvers))
    (hvoted : u.id ∉ st.voters)
    (hq : ¬ cfg.required ≤ st.approvals.length + 1) :
    castVote cfg year month nowStr appendOk promptMsgId reg pend chatId msgId u .approve =
      ⟨setA reg msgId { st with voters := st.voters ++ [u.id],
                                approvals := st.approvals ++ [(u.id, profileOf u)] },
        pend,
        .ApprovalRecorded (toString (st.approvals.length + 1) ++ "/" ++ toString cfg.required),
        [], false⟩ := by
  simp [castVote, hl, hres, hauth, hvoted, hq]

theorem castVote_reject (cfg : Config) (year month : Nat) (nowStr : String)
    (appendOk : Bool) (promptMsgId : Nat) (reg : Reg) (pend : Pend) (chatId msgId : Nat)
    (u : User) (st : RequestState) (hl : lookupA reg msgId = some st)
    (hres : st.resolved = false)
    (hauth : ¬ (cfg.approvers ≠ [] ∧ u.username.getD "" ∉ cfg.approvers))
    (hvoted : u.id ∉ st.voters) :
    castVote cfg year month nowStr appendOk promptMsgId reg pend chatId msgId u .reject =
      ⟨setA reg msgId { st with voters := st.voters ++ [u.id],
                                rejected := true, resolved := true },
        setA pend (chatId, u.id) ⟨promptMsgId, msgId⟩, .RejectRecorded, [], false⟩ := by
  simp [castVote, hl, hres, hauth, hvoted]

/-- Every branch of the vote handler leaves the registry alone or rewrites
the voted-on card's entry, emits at most the one append attempt for that
card, and touches at most the `(chat, voter)` pending-comment slot. -/
theorem castVote_shape (cfg : Config) (year month : Nat) (nowStr : String) (appendOk : Bool)
    (promptMsgId : Nat) (reg : Reg) (pend : Pend) (chatId msgId : Nat) (u : User)
    (kind : VoteKind) :
    ((castVote cfg year month nowStr appendOk promptMsgId reg pend chatId msgId u kind).reg = reg ∨
      ∃ st', (castVote cfg year month nowStr appendOk promptMsgId reg pend chatId msgId u kind).reg
        = setA reg msgId st') ∧
    ((castVote cfg year month nowStr appendOk promptMsgId reg pend chatId msgId u kind).appends
        = [] ∨
      ∃ rec, (castVote cfg year month nowStr appendOk promptMsgId reg pend chatId msgId u
        kind).appends = [(msgId, rec)]) ∧
    ((castVote cfg year month nowStr appendOk promptMsgId reg pend chatId msgId u kind).pend
        = pend ∨
      (castVote cfg year month nowStr appendOk promptMsgId reg pend chatId msgId u kind).pend
        = setA pend (chatId, u.id) ⟨promptMsgId, msgId⟩) := by
  rcases hld : lookupA reg msgId with _ | st
  · rw [castVote_none cfg year month nowStr appendOk promptMsgId reg pend chatId msgId u
      kind hld]
    exact ⟨Or.inl rfl, Or.inl rfl, Or.inl rfl⟩
  · by_cases hres : st.resolved = true
    · rw [castVote_resolved cfg year month nowStr appendOk promptMsgId reg pend chatId msgId u
        kind st hld hres]
      exact ⟨Or.inl rfl, Or.inl rfl, Or.inl rfl⟩
    · replace hres : st.resolved = false := by simpa using hres
      by_cases hauth : cfg.approvers ≠ [] ∧ u.username.getD "" ∉ cfg.approvers
      · rw [castVote_unauthorized cfg year month nowStr appendOk promptMsgId reg pend chatId
          msgId u kind st hld hres hauth]
        exact ⟨Or.inl rfl, Or.inl rfl, Or.inl rfl⟩
      · by_cases hvoted : u.id ∈ st.voters
        · rw [castVote_alreadyVoted cfg year month nowStr appendOk promptMsgId reg pend chatId
            msgId u kind st hld hres hauth hvoted]
          exact ⟨Or.inl rfl, Or.inl rfl, Or.inl rfl⟩
        · cases kind with
          | approve =>
            by_cases hq : cfg.required ≤ st.approvals.length + 1
            · rw [castVote_approve_quorum cfg year month nowStr appendOk promptMsgId reg pend
                chatId msgId u st hld hres hauth hvoted hq]
              exact ⟨Or.inr ⟨_, rfl⟩, Or.inr ⟨_, rfl⟩, Or.inl rfl⟩
            · rw [castVote_approve_below cfg year month nowStr appendOk promptMsgId reg pend
                chatId msgId u st hld hres hauth hvoted hq]
              exact ⟨Or.inr ⟨_, rfl⟩, Or.inl rfl, Or.inl rfl⟩
          | reject =>
            rw [castVote_reject cfg year month nowStr appendOk promptMsgId reg pend chatId
              msgId u st hld hres hauth hvoted]
            exact ⟨Or.inr ⟨_, rfl⟩, Or.inl rfl, Or.inr rfl⟩

/-- A resolved request's registry entry is untouched by any further vote
event, and no append attempt for it is emitted. -/
theorem voteStep_frozen (cfg : Config) (s : Sys) (e : VoteEv) (m : Nat) (st : RequestState)
    (hl : lookupA s.reg m = some st) (hres : st.resolved = true) :
    lookupA (voteStep cfg s e).reg m = some st ∧
    appendsFor m (voteStepFull cfg s e).appends = [] := by
  by_cases hm : e.msgId = m
  · subst hm
    rw [voteStep, voteStepFull, castVote_resolved cfg e.year e.month e.nowStr e.appendOk
      e.promptMsgId s.reg s.pend e.chatId e.msgId e.user e.kind st hl hres]
    exact ⟨hl, rfl⟩
  · obtain ⟨hreg, happ, -⟩ := castVote_shape cfg e.year e.month e.nowStr e.appendOk
      e.promptMsgId s.reg s.pend e.chatId e.msgId e.user e.kind
    constructor
    · rcases hreg with h | ⟨st', h⟩
      · rw [voteStep, voteStepFull] at *
        rw [h, hl]
      · rw [voteStep, voteStepFull] at *
        rw [h, lookupA_setA_ne _ _ _ _ (fun hx => hm hx.symm), hl]
    · rcases happ with h | ⟨rec, h⟩
      · rw [voteStepFull] at *
        rw [h]
        rfl
      · rw [voteStepFull] at *
        rw [h]
        simp [appendsFor, hm]

/-- Run-level version of `voteStep_frozen`. -/
theorem runVotes_frozen (cfg : Config) (evs : List VoteEv) (s : Sys) (m : Nat)
    (st : RequestState) (hl : lookupA s.reg m = some st) (hres : st.resolved = true) :
    lookupA (runVotes cfg s evs).reg m = some st ∧
    appendsFor m (runVotesLog cfg s evs) = [] := by
  induction evs generalizing s with
  | nil => exact ⟨hl, rfl⟩
  | cons e es ih =>
    obtain ⟨h1, h2⟩ := voteStep_frozen cfg s e m st hl hres
    obtain ⟨h3, h4⟩ := ih (voteStep cfg s e) h1
    refine ⟨h3, ?_⟩
    rw [runVotesLog, appendsFor, List.filter_append]
    rw [appendsFor] at h2 h4
    rw [h2, h4]
    rfl

/-- One vote event preserves the quorum/resolution invariant together with
voter bookkeeping at every card. -/
theorem voteStep_inv (cfg : Config) (s : Sys) (e : VoteEv) (m : Nat)
    (h : ∀ st, lookupA s.reg m = some st → quorumInv cfg st ∧ votersInv st) :
    ∀ st', lookupA (voteStep cfg s e).reg m = some st' → quorumInv cfg st' ∧ votersInv st' := by
  intro st' hst'
  by_cases hm : e.msgId = m
  · subst hm
    rw [voteStep, voteStepFull] at hst'
    rcases hld : lookupA s.reg e.msgId with _ | st
    · rw [castVote_none cfg e.year e.month e.nowStr e.appendOk e.promptMsgId s.reg s.pend
        e.chatId e.msgId e.user e.kind hld] at hst'
      exact h st' hst'
    · by_cases hres : st.resolved = true
      · rw [castVote_resolved cfg e.year e.month e.nowStr e.appendOk e.promptMsgId s.reg s.pend
          e.chatId e.msgId e.user e.kind st hld hres] at hst'
        exact h st' hst'
      · replace hres : st.resolved = false := by simpa using hres
        obtain ⟨hqi, hvi⟩ := h st hld
        by_cases hauth : cfg.approvers ≠ [] ∧ e.user.username.getD "" ∉ cfg.approvers
        · rw [castVote_unauthorized cfg e.year e.month e.nowStr e.appendOk e.promptMsgId s.reg
            s.pend e.chatId e.msgId e.user e.kind st hld hres hauth] at hst'
          exact h st' hst'
        · by_cases hvoted : e.user.id ∈ st.voters
          · rw [castVote_alreadyVoted cfg e.year e.month e.nowStr e.appendOk e.promptMsgId s.reg
              s.pend e.chatId e.msgId e.user e.kind st hld hres hauth hvoted] at hst'
            exact h st' hst'
          · have hrej : st.rejected = false := by
              rw [quorumInv, hres] at hqi
              rcases Bool.or_eq_false_iff.mp hqi.symm with ⟨-, hx⟩
              exact hx
            have hlen : ¬ cfg.required ≤ st.approvals.length := by
              rw [quorumInv, hres] at hqi
              rcases Bool.or_eq_false_iff.mp hqi.symm with ⟨hx, -⟩
              simpa using hx
            have hnotin : ∀ x : Profile, (e.user.id, x) ∉ st.approvals := by
              intro x hx
              exact hvoted (hvi.1 (e.user.id, x) hx)
            cases hk : e.kind with
            | approve =>
              by_cases hq : cfg.required ≤ st.approvals.length + 1
              · rw [hk, castVote_approve_quorum cfg e.year e.month e.nowStr e.appendOk
                  e.promptMsgId s.reg s.pend e.chatId e.msgId e.user st hld hres hauth hvoted
                  hq, lookupA_setA_self] at hst'
                obtain rfl : _ = st' := Option.some.inj hst'
                refine ⟨?_, ?_, ?_⟩
                · simp [quorumInv, hq]
                · intro a ha
                  simp only [List.mem_append] at ha
                  rcases ha with ha | ha
                  · simp only [List.mem_append]
                    exact Or.inl (hvi.1 a ha)
                  · simp only [List.mem_singleton] at ha
                    subst ha
                    simp
                · simpa [List.nodup_append] using ⟨hvi.2, hnotin⟩
              · rw [hk, castVote_approve_below cfg e.year e.month e.nowStr e.appendOk
                  e.promptMsgId s.reg s.pend e.chatId e.msgId e.user st hld hres hauth hvoted
                  hq, lookupA_setA_self] at hst'
                obtain rfl : _ = st' := Option.some.inj hst'
                refine ⟨?_, ?_, ?_⟩
                · simp [quorumInv, hq, hres, hrej]
                · intro a ha
                  simp only [List.mem_append] at ha
                  rcases ha with ha | ha
                  · simp only [List.mem_append]
                    exact Or.inl (hvi.1 a ha)
                  · simp only [List.mem_singleton] at ha
                    subst ha
                    simp
                · simpa [List.nodup_append] using ⟨hvi.2, hnotin⟩
            | reject =>
              rw [hk, castVote_reject cfg e.year e.month e.nowStr e.appendOk e.promptMsgId
                s.reg s.pend e.chatId e.msgId e.user st hld hres hauth hvoted,
                lookupA_setA_self] at hst'
              obtain rfl : _ = st' := Option.some.inj hst'
              refine ⟨by simp [quorumInv], ?_, hvi.2⟩
              intro a ha
              simp only [List.mem_append]
              exact Or.inl (hvi.1 a ha)
  · obtain ⟨hreg, -, -⟩ := castVote_shape cfg e.year e.month e.nowStr e.appendOk e.promptMsgId
      s.reg s.pend e.chatId e.msgId e.user e.kind
    rw [voteStep, voteStepFull] at hst'
    rcases hreg with hx | ⟨stx, hx⟩
    · rw [hx] at hst'
      exact h st' hst'
    · rw [hx, lookupA_setA_ne _ _ _ _ (fun hy => hm hy.symm)] at hst'
      exact h st' hst'

/-- Run-level invariant preservation. -/
theorem runVotes_inv (cfg : Config) (evs : List VoteEv) (s : Sys) (m : Nat)
    (h : ∀ st, lookupA s.reg m = some st → quorumInv cfg st ∧ votersInv st) :
    ∀ st', lookupA (runVotes cfg s evs).reg m = some st' → quorumInv cfg st' ∧ votersInv st' := by
  induction evs generalizing s with
  | nil => exact h
  | cons e es ih => exact ih (voteStep cfg s e) (voteStep_inv cfg s e m h)

/-- `QuorumReached` is signalled exactly on the vote that lifts the approval
count past the threshold. -/
theorem castVote_quorum_iff (cfg : Config) (year month : Nat) (nowStr : String)
    (appendOk : Bool) (promptMsgId : Nat) (reg : Reg) (pend : Pend) (chatId msgId : Nat)
    (u : User) (kind : VoteKind) (st : RequestState) (hl : lookupA reg msgId = some st)
    (hinv : quorumInv cfg st) :
    (castVote cfg year month nowStr appendOk promptMsgId reg pend chatId msgId u kind).outcome
        = .QuorumReached ↔
      (st.approvals.length < cfg.required ∧
        ∃ st', lookupA (castVote cfg year month nowStr appendOk promptMsgId reg pend chatId
          msgId u kind).reg msgId = some st' ∧ cfg.required ≤ st'.approvals.length) := by
  by_cases hres : st.resolved = true
  · rw [castVote_resolved cfg year month nowStr appendOk promptMsgId reg pend chatId msgId u
      kind st hl hres]
    simp only [hl]
    constructor
    · intro hx
      cases hx
    · rintro ⟨hlt, st', hst', hge⟩
      obtain rfl : st = st' := Option.some.inj hst'
      exact absurd hge (Nat.not_le.mpr hlt)
  · replace hres : st.resolved = false := by simpa using hres
    have hlen : ¬ cfg.required ≤ st.approvals.length := by
      rw [quorumInv, hres] at hinv
      rcases Bool.or_eq_false_iff.mp hinv.symm with ⟨hx, -⟩
      simpa using hx
    by_cases hauth : cfg.approvers ≠ [] ∧ u.username.getD "" ∉ cfg.approvers
    · rw [castVote_unauthorized cfg year month nowStr appendOk promptMsgId reg pend chatId
        msgId u kind st hl hres hauth]
      simp only [hl]
      constructor
      · intro hx
        cases hx
      · rintro ⟨hlt, st', hst', hge⟩
        obtain rfl : st = st' := Option.some.inj hst'
        exact absurd hge hlen
    · by_cases hvoted : u.id ∈ st.voters
      · rw [castVote_alreadyVoted cfg year month nowStr appendOk promptMsgId reg pend chatId
          msgId u kind st hl hres hauth hvoted]
        simp only [hl]
        constructor
        · intro hx
          cases hx
        · rintro ⟨hlt, st', hst', hge⟩
          obtain rfl : st = st' := Option.some.inj hst'
          exact absurd hge hlen
      · cases kind with
        | approve =>
          by_cases hq : cfg.required ≤ st.approvals.length + 1
          · rw [castVote_approve_quorum cfg year month nowStr appendOk promptMsgId reg pend
              chatId msgId u st hl hres hauth hvoted hq]
            simp only [lookupA_setA_self]
            constructor
            · intro _
              exact ⟨Nat.not_le.mp hlen, _, rfl, by simpa using hq⟩
            · intro _
              trivial
          · rw [castVote_approve_below cfg year month nowStr appendOk promptMsgId reg pend
              chatId msgId u st hl hres hauth hvoted hq]
            simp only [lookupA_setA_self]
            constructor
            · intro hx
              cases hx
            · rintro ⟨hlt, st', hst', hge⟩
              obtain rfl : _ = st' := Option.some.inj hst'
              refine absurd ?_ hq
              simpa using hge
        | reject =>
          rw [castVote_reject cfg year month nowStr appendOk promptMsgId reg pend chatId msgId
            u st hl hres hauth hvoted]
          simp only [lookupA_setA_self]
          constructor
          · intro hx
            cases hx
          · rintro ⟨hlt, st', hst', hge⟩
            obtain rfl : _ = st' := Option.some.inj hst'
            exact absurd hge hlen

/-- If no pending-comment entry references card `t`, the reply handler can
neither touch `t`'s registry entry nor create a reference to `t`. -/
theorem handleMessage_frozen (reg : Reg) (pend : Pend) (m : IncomingMsg) (t : Nat)
    (st : RequestState) (hl : lookupA reg t = some st) (hp : noPendFor t pend) :
    lookupA (handleMessage reg pend m).reg t = some st ∧
    noPendFor t (handleMessage reg pend m).pend := by
  rcases hw : lookupA pend (m.chatId, m.fromId) with _ | wait
  · simp only [handleMessage, hw]
    exact ⟨hl, hp⟩
  · have hwt : wait.ticketMsgId ≠ t := hp _ (lookupA_mem hw)
    by_cases hr : m.replyTo ≠ some wait.promptMsgId
    · simp only [handleMessage, hw, if_pos hr]
      exact ⟨hl, hp⟩
    · rcases hts : lookupA reg wait.ticketMsgId with _ | st2
      · simp only [handleMessage, hw, if_neg hr, hts]
        exact ⟨hl, fun kv hkv => hp kv (mem_delA hkv)⟩
      · simp only [handleMessage, hw, if_neg hr, hts]
        refine ⟨?_, fun kv hkv => hp kv (mem_delA hkv)⟩
        rw [lookupA_setA_ne _ _ _ _ (Ne.symm hwt)]
        exact hl

/-- A resolved card that no pending-comment entry references is completely
frozen: no event of any kind changes its registry entry, and no entry
referencing it ever appears again. -/
theorem sysStep_frozen (cfg : Config) (s : Sys) (ev : Event) (t : Nat) (st : RequestState)
    (hl : lookupA s.reg t = some st) (hres : st.resolved = true) (hp : noPendFor t s.pend) :
    lookupA (sysStep cfg s ev).reg t = some st ∧ noPendFor t (sysStep cfg s ev).pend := by
  cases ev with
  | vote e =>
    refine ⟨(voteStep_frozen cfg s e t st hl hres).1, ?_⟩
    by_cases hm : e.msgId = t
    · subst hm
      show noPendFor e.msgId (voteStep cfg s e).pend
      rw [voteStep, voteStepFull, castVote_resolved cfg e.year e.month e.nowStr e.appendOk
        e.promptMsgId s.reg s.pend e.chatId e.msgId e.user e.kind st hl hres]
      exact hp
    · obtain ⟨-, -, hpend⟩ := castVote_shape cfg e.year e.month e.nowStr e.appendOk
        e.promptMsgId s.reg s.pend e.chatId e.msgId e.user e.kind
      show noPendFor t (voteStep cfg s e).pend
      rw [voteStep, voteStepFull] at *
      rcases hpend with hx | hx
      · rw [hx]
        exact hp
      · rw [hx]
        intro kv hkv
        rcases mem_setA hkv with h1 | h1
        · subst h1
          exact hm
        · exact hp kv h1
  | reply m => exact handleMessage_frozen s.reg s.pend m t st hl hp
  | remind _ => exact ⟨hl, hp⟩

/-- Run-level version of `sysStep_frozen`. -/
theorem runSys_frozen (cfg : Config) (evs : List Event) (s : Sys) (t : Nat)
    (st : RequestState) (hl : lookupA s.reg t = some st) (hres : st.resolved = true)
    (hp : noPendFor t s.pend) :
    lookupA (runSys cfg s evs).reg t = some st ∧ noPendFor t (runSys cfg s evs).pend := by
  induction evs generalizing s with
  | nil => exact ⟨hl, hp⟩
  | cons ev evs ih =>
    obtain ⟨h1, h2⟩ := sysStep_frozen cfg s ev t st hl hres hp
    exact ih (sysStep cfg s ev) h1 h2

/-- An append attempt is emitted exactly when `QuorumReached` is signalled. -/
theorem castVote_appends_iff (cfg : Config) (year month : Nat) (nowStr : String)
    (appendOk : Bool) (promptMsgId : Nat) (reg : Reg) (pend : Pend) (chatId msgId : Nat)
    (u : User) (kind : VoteKind) :
    (castVote cfg year month nowStr appendOk promptMsgId reg pend chatId msgId u kind).appends
        ≠ [] ↔
    (castVote cfg year month nowStr appendOk promptMsgId reg pend chatId msgId u
        kind).outcome = .QuorumReached := by
  rcases hld : lookupA reg msgId with _ | st
  · rw [castVote_none cfg year month nowStr appendOk promptMsgId reg pend chatId msgId u
      kind hld]
    simp
  · by_cases hres : st.resolved = true
    · rw [castVote_resolved cfg year month nowStr appendOk promptMsgId reg pend chatId msgId u
        kind st hld hres]
      simp
    · replace hres : st.resolved = false := by simpa using hres
      by_cases hauth : cfg.approvers ≠ [] ∧ u.username.getD "" ∉ cfg.approvers
      · rw [castVote_unauthorized cfg year month nowStr appendOk promptMsgId reg pend chatId
          msgId u kind st hld hres hauth]
        simp
      · by_cases hvoted : u.id ∈ st.voters
        · rw [castVote_alreadyVoted cfg year month nowStr appendOk promptMsgId reg pend chatId
            msgId u kind st hld hres hauth hvoted]
          simp
        · cases kind with
          | approve =>
            by_cases hq : cfg.required ≤ st.approvals.length + 1
            · rw [castVote_approve_quorum cfg year month nowStr appendOk promptMsgId reg pend
                chatId msgId u st hld hres hauth hvoted hq]
              simp
            · rw [castVote_approve_below cfg year month nowStr appendOk promptMsgId reg pend
                chatId msgId u st hld hres hauth hvoted hq]
              simp
          | reject =>
            rw [castVote_reject cfg year month nowStr appendOk promptMsgId reg pend chatId
              msgId u st hld hres hauth hvoted]
            simp

/-! ### Claim theorems -/

/-- C1: Over every sequence of vote events on a request created fresh, the
request is resolved exactly when the number of distinct approvals has
reached `requiredApprovals` or a reject was recorded — never while the
count is below quorum absent a reject, and never later than the vote that
reaches the threshold — approver ids stay pairwise distinct, and
`QuorumReached` is signalled on exactly the vote that lifts the approval
count from below `requiredApprovals` to at least `requiredApprovals`. -/
theorem c1_quorum_transition (cfg : Config) (hR : 1 ≤ cfg.required) (s0 : Sys) (m : Nat)
    (st0 : RequestState) (h0 : lookupA s0.reg m = some st0)
    (happ : st0.approvals = []) (hres : st0.resolved = false) (hrej : st0.rejected = false)
    (evs : List VoteEv) :
    (∀ st, lookupA (runVotes cfg s0 evs).reg m = some st →
        st.resolved = (decide (cfg.required ≤ st.approvals.length) || st.rejected) ∧
        (st.approvals.map Prod.fst).Nodup) ∧
    (∀ (e : VoteEv) (st : RequestState), e.msgId = m →
        lookupA (runVotes cfg s0 evs).reg m = some st →
        ((voteStepFull cfg (runVotes cfg s0 evs) e).outcome = .QuorumReached ↔
          (st.approvals.length < cfg.required ∧
            ∃ st', lookupA (voteStep cfg (runVotes cfg s0 evs) e).reg m = some st' ∧
              cfg.required ≤ st'.approvals.length))) := by
  have hbase : ∀ st, lookupA s0.reg m = some st → quorumInv cfg st ∧ votersInv st := by
    intro st hst
    rw [h0] at hst
    obtain rfl := Option.some.inj hst
    have hn0 : ¬ cfg.required ≤ 0 := Nat.not_le.mpr hR
    refine ⟨?_, ?_, ?_⟩
    · simp [quorumInv, happ, hres, hrej, hn0]
    · intro a ha
      rw [happ] at ha
      cases ha
    · rw [happ]
      exact List.nodup_nil
  have hrun := runVotes_inv cfg evs s0 m hbase
  constructor
  · intro st hst
    obtain ⟨hq, hv⟩ := hrun st hst
    exact ⟨hq, hv.2⟩
  · intro e st hm hst
    subst hm
    exact castVote_quorum_iff cfg e.year e.month e.nowStr e.appendOk e.promptMsgId
      (runVotes cfg s0 evs).reg (runVotes cfg s0 evs).pend e.chatId e.msgId e.user e.kind
      st hst (hrun st hst).1

/-- C2: Once a request is resolved, any further vote event on it is a
no-op signalled `Ignored` — neither map changes, no append is attempted,
the entry (its `approvals`, `voters`, `rejected`) is untouched by any vote
event whatsoever, and `resolved` never reverts; a vote on a handle with no
registered request behaves the same. -/
theorem c2_resolved_vote_noop (cfg : Config) (s : Sys) (m : Nat) (e : VoteEv)
    (hm : e.msgId = m) :
    (∀ st, lookupA s.reg m = some st → st.resolved = true →
        voteStep cfg s e = s ∧ (voteStepFull cfg s e).outcome = .Ignored ∧
        (voteStepFull cfg s e).appends = []) ∧
    (lookupA s.reg m = none →
        voteStep cfg s e = s ∧ (voteStepFull cfg s e).outcome = .Ignored ∧
        (voteStepFull cfg s e).appends = []) ∧
    (∀ (e' : VoteEv) (st : RequestState), lookupA s.reg m = some st → st.resolved = true →
        ∀ st', lookupA (voteStep cfg s e').reg m = some st' → st' = st ∧
          st'.resolved = true) := by
  subst hm
  refine ⟨?_, ?_, ?_⟩
  · intro st hst hres
    rw [voteStep, voteStepFull, castVote_resolved cfg e.year e.month e.nowStr e.appendOk
      e.promptMsgId s.reg s.pend e.chatId e.msgId e.user e.kind st hst hres]
    exact ⟨rfl, rfl, rfl⟩
  · intro hnone
    rw [voteStep, voteStepFull, castVote_none cfg e.year e.month e.nowStr e.appendOk
      e.promptMsgId s.reg s.pend e.chatId e.msgId e.user e.kind hnone]
    exact ⟨rfl, rfl, rfl⟩
  · intro e' st hst hres st' hst'
    rw [(voteStep_frozen cfg s e' e.msgId st hst hres).1] at hst'
    have hed : st = st' := Option.some.inj hst'
    subst hed
    exact ⟨rfl, hres⟩

/-- C3: An authorized, first-time reject vote on an unresolved registered
request sets `resolved` and `rejected` in the same step, signals
`RejectRecorded`, and from then on every further vote on that request —
any sequence, including approvals that would otherwise reach quorum —
leaves its entry untouched and never produces a ledger append. -/
theorem c3_reject_blocks (cfg : Config) (s : Sys) (e : VoteEv) (st : RequestState)
    (hk : e.kind = .reject) (hl : lookupA s.reg e.msgId = some st)
    (hres : st.resolved = false)
    (hauth : ¬ (cfg.approvers ≠ [] ∧ e.user.username.getD "" ∉ cfg.approvers))
    (hvoted : e.user.id ∉ st.voters) :
    (voteStepFull cfg s e).outcome = .RejectRecorded ∧
    ∃ st', lookupA (voteStep cfg s e).reg e.msgId = some st' ∧
      st'.resolved = true ∧ st'.rejected = true ∧ st'.approvals = st.approvals ∧
      ∀ evs : List VoteEv,
        lookupA (runVotes cfg (voteStep cfg s e) evs).reg e.msgId = some st' ∧
        appendsFor e.msgId (runVotesLog cfg (voteStep cfg s e) evs) = [] := by
  rw [voteStep, voteStepFull, hk, castVote_reject cfg e.year e.month e.nowStr e.appendOk
    e.promptMsgId s.reg s.pend e.chatId e.msgId e.user st hl hres hauth hvoted]
  refine ⟨rfl, ?_⟩
  refine ⟨{ st with
      voters := st.voters ++ [e.user.id]
      rejected := true
      resolved := true },
    lookupA_setA_self _ _ _, rfl, rfl, rfl, ?_⟩
  intro evs
  exact runVotes_frozen cfg evs ⟨_, _⟩ e.msgId _ (lookupA_setA_self _ _ _) rfl

/-- C4: With `requiredApprovals = 2` and two distinct authorized approvers
voting approve in turn, the first vote yields `ApprovalRecorded` with
progress `"1/2"` and no append, the second yields `QuorumReached` with
exactly one ledger append carrying both approvers in vote order, the fixed
status label, and the year-month partition of the resolution time; no
further append for the request is ever attempted, and in general an append
is attempted exactly on `QuorumReached`. -/
theorem c4_two_approvals (cfg : Config) (hr : cfg.required = 2) (s0 : Sys) (m : Nat)
    (st0 : RequestState) (h0 : lookupA s0.reg m = some st0)
    (happ : st0.approvals = []) (hvot : st0.voters = []) (hres : st0.resolved = false)
    (uA uB : User) (hne : uA.id ≠ uB.id)
    (hauthA : ¬ (cfg.approvers ≠ [] ∧ uA.username.getD "" ∉ cfg.approvers))
    (hauthB : ¬ (cfg.approvers ≠ [] ∧ uB.username.getD "" ∉ cfg.approvers))
    (cA cB pA pB yA moA yB moB : Nat) (dA dB : String) (okA okB : Bool) :
    (castVote cfg yA moA dA okA pA s0.reg s0.pend cA m uA .approve).outcome =
        .ApprovalRecorded "1/2" ∧
    (castVote cfg yA moA dA okA pA s0.reg s0.pend cA m uA .approve).appends = [] ∧
    (castVote cfg yB moB dB okB pB
        (castVote cfg yA moA dA okA pA s0.reg s0.pend cA m uA .approve).reg
        (castVote cfg yA moA dA okA pA s0.reg s0.pend cA m uA .approve).pend
        cB m uB .approve).outcome = .QuorumReached ∧
    (∃ rec, (castVote cfg yB moB dB okB pB
        (castVote cfg yA moA dA okA pA s0.reg s0.pend cA m uA .approve).reg
        (castVote cfg yA moA dA okA pA s0.reg s0.pend cA m uA .approve).pend
        cB m uB .approve).appends = [(m, rec)] ∧
      rec.approvedBy = String.intercalate ", "
        [displayName (profileOf uA), displayName (profileOf uB)] ∧
      rec.status = "Одобрено" ∧
      rec.sheet = monthSheetName yB moB) ∧
    (∀ evs : List VoteEv, appendsFor m (runVotesLog cfg
        ⟨(castVote cfg yB moB dB okB pB
            (castVote cfg yA moA dA okA pA s0.reg s0.pend cA m uA .approve).reg
            (castVote cfg yA moA dA okA pA s0.reg s0.pend cA m uA .approve).pend
            cB m uB .approve).reg,
          (castVote cfg yB moB dB okB pB
            (castVote cfg yA moA dA okA pA s0.reg s0.pend cA m uA .approve).reg
            (castVote cfg yA moA dA okA pA s0.reg s0.pend cA m uA .approve).pend
            cB m uB .approve).pend⟩ evs) = []) ∧
    (∀ (year month : Nat) (nowStr : String) (appendOk : Bool) (promptMsgId : Nat)
        (reg : Reg) (pend : Pend) (chatId msgId : Nat) (u : User) (kind : VoteKind),
      (castVote cfg year month nowStr appendOk promptMsgId reg pend chatId msgId u
          kind).appends ≠ [] ↔
      (castVote cfg year month nowStr appendOk promptMsgId reg pend chatId msgId u
          kind).outcome = .QuorumReached) := by
  have hvA : uA.id ∉ st0.voters := by
    rw [hvot]
    simp
  have hqA : ¬ cfg.required ≤ st0.approvals.length + 1 := by
    rw [hr, happ]
    decide
  have h1 := castVote_approve_below cfg yA moA dA okA pA s0.reg s0.pend cA m uA st0
    h0 hres hauthA hvA hqA
  rw [h1]
  have hvB : uB.id ∉ ({ st0 with
      voters := st0.voters ++ [uA.id]
      approvals := st0.approvals ++ [(uA.id, profileOf uA)] } : RequestState).voters := by
    show uB.id ∉ st0.voters ++ [uA.id]
    rw [hvot]
    simp
    exact fun h => hne h.symm
  have hqB : cfg.required ≤ ({ st0 with
      voters := st0.voters ++ [uA.id]
      approvals := st0.approvals ++ [(uA.id, profileOf uA)] } : RequestState).approvals.length
      + 1 := by
    show cfg.required ≤ (st0.approvals ++ [(uA.id, profileOf uA)]).length + 1
    rw [hr, happ]
    simp
  have h2 := castVote_approve_quorum cfg yB moB dB okB pB
    (setA s0.reg m ({ st0 with
      voters := st0.voters ++ [uA.id]
      approvals := st0.approvals ++ [(uA.id, profileOf uA)] } : RequestState)) s0.pend cB m uB
    ({ st0 with
      voters := st0.voters ++ [uA.id]
      approvals := st0.approvals ++ [(uA.id, profileOf uA)] } : RequestState)
    (lookupA_setA_self _ _ _) hres hauthB hvB hqB
  rw [h2]
  refine ⟨?_, rfl, rfl, ⟨_, rfl, ?_, rfl, rfl⟩, ?_, ?_⟩
  · rw [happ, hr]
    rfl
  · show String.intercalate ", "
        (((st0.approvals ++ [(uA.id, profileOf uA)]) ++ [(uB.id, profileOf uB)]).map
          fun e => displayName e.2) = _
    rw [happ]
    rfl
  · intro evs
    exact (runVotes_frozen cfg evs ⟨_, _⟩ m _ (lookupA_setA_self _ _ _) rfl).2
  · intro year month nowStr appendOk promptMsgId reg pend chatId msgId u kind
    exact castVote_appends_iff cfg year month nowStr appendOk promptMsgId reg pend chatId
      msgId u kind

/-- C5: When quorum is reached, the resulting state, outcome and the single
append attempt are identical whether the ledger append succeeds or fails:
the request stays resolved, the failure only raises a visible error report,
and no retry append is ever attempted afterwards. -/
theorem c5_append_failure (cfg : Config) (s : Sys) (chatId m promptMsgId year month : Nat)
    (nowStr : String) (u : User) (st : RequestState)
    (hl : lookupA s.reg m = some st) (hres : st.resolved = false)
    (hauth : ¬ (cfg.approvers ≠ [] ∧ u.username.getD "" ∉ cfg.approvers))
    (hvoted : u.id ∉ st.voters)
    (hq : cfg.required ≤ st.approvals.length + 1) :
    (castVote cfg year month nowStr false promptMsgId s.reg s.pend chatId m u .approve).reg =
      (castVote cfg year month nowStr true promptMsgId s.reg s.pend chatId m u .approve).reg ∧
    (castVote cfg year month nowStr false promptMsgId s.reg s.pend chatId m u .approve).pend =
      (castVote cfg year month nowStr true promptMsgId s.reg s.pend chatId m u .approve).pend ∧
    (castVote cfg year month nowStr false promptMsgId s.reg s.pend chatId m u
        .approve).outcome =
      (castVote cfg year month nowStr true promptMsgId s.reg s.pend chatId m u
        .approve).outcome ∧
    (castVote cfg year month nowStr false promptMsgId s.reg s.pend chatId m u
        .approve).appends =
      (castVote cfg year month nowStr true promptMsgId s.reg s.pend chatId m u
        .approve).appends ∧
    (castVote cfg year month nowStr false promptMsgId s.reg s.pend chatId m u
        .approve).errorReported = true ∧
    (castVote cfg year month nowStr true promptMsgId s.reg s.pend chatId m u
        .approve).errorReported = false ∧
    (castVote cfg year month nowStr false promptMsgId s.reg s.pend chatId m u
        .approve).appends.length = 1 ∧
    (∃ st', lookupA (castVote cfg year month nowStr false promptMsgId s.reg s.pend chatId m u
          .approve).reg m = some st' ∧ st'.resolved = true ∧
      ∀ evs : List VoteEv,
        lookupA (runVotes cfg
          ⟨(castVote cfg year month nowStr false promptMsgId s.reg s.pend chatId m u
              .approve).reg,
            (castVote cfg year month nowStr false promptMsgId s.reg s.pend chatId m u
              .approve).pend⟩ evs).reg m = some st' ∧
        appendsFor m (runVotesLog cfg
          ⟨(castVote cfg year month nowStr false promptMsgId s.reg s.pend chatId m u
              .approve).reg,
            (castVote cfg year month nowStr false promptMsgId s.reg s.pend chatId m u
              .approve).pend⟩ evs) = []) := by
  rw [castVote_approve_quorum cfg year month nowStr false promptMsgId s.reg s.pend chatId m u
      st hl hres hauth hvoted hq,
    castVote_approve_quorum cfg year month nowStr true promptMsgId s.reg s.pend chatId m u
      st hl hres hauth hvoted hq]
  refine ⟨rfl, rfl, rfl, rfl, rfl, rfl, rfl, _, lookupA_setA_self _ _ _, rfl, ?_⟩
  intro evs
  exact runVotes_frozen cfg evs ⟨_, _⟩ m _ (lookupA_setA_self _ _ _) rfl

/-- C6: With a single pending reply correlation for `(conv, voter)` holding
prompt `prompt` and card `tMsg` (whose request is registered), an inbound
reply finalizes the rejection — storing the reply's trimmed text as the
rejection reason and removing the correlation entry — exactly when the
sender matches the correlation key and the reply's responding-to reference
equals the stored prompt handle; any other message changes nothing and
finalizes nothing. -/
theorem c6_reply_correlation (reg : Reg) (conv voter prompt tMsg : Nat) (st : RequestState)
    (hreg : lookupA reg tMsg = some st) (pend : Pend)
    (hpend : pend = [((conv, voter), ⟨prompt, tMsg⟩)]) (m : IncomingMsg) :
    ((m.chatId = conv ∧ m.fromId = voter ∧ m.replyTo = some prompt) →
      (handleMessage reg pend m).outcome = .Finalized (trimStr m.text) ∧
      lookupA (handleMessage reg pend m).reg tMsg =
        some { st with rejectComment := some (trimStr m.text) } ∧
      (handleMessage reg pend m).pend = []) ∧
    (¬ (m.chatId = conv ∧ m.fromId = voter ∧ m.replyTo = some prompt) →
      (handleMessage reg pend m).reg = reg ∧ (handleMessage reg pend m).pend = pend ∧
      ∀ c, (handleMessage reg pend m).outcome ≠ .Finalized c) := by
  subst hpend
  constructor
  · rintro ⟨h1, h2, h3⟩
    have hw : lookupA [((conv, voter), (⟨prompt, tMsg⟩ : PendEntry))] (m.chatId, m.fromId) =
        some ⟨prompt, tMsg⟩ := by
      simp [lookupA, h1, h2]
    simp only [handleMessage, hw]
    rw [if_neg (show ¬ m.replyTo ≠ some prompt from fun hx => hx h3)]
    simp only [hreg]
    refine ⟨?_, ?_, ?_⟩
    · trivial
    · rw [lookupA_setA_self]
    · simp [delA, h1, h2]
  · intro hn
    by_cases hkey : m.chatId = conv ∧ m.fromId = voter
    · have h3 : m.replyTo ≠ some prompt := fun hx => hn ⟨hkey.1, hkey.2, hx⟩
      have hw : lookupA [((conv, voter), (⟨prompt, tMsg⟩ : PendEntry))] (m.chatId, m.fromId) =
          some ⟨prompt, tMsg⟩ := by
        simp [lookupA, hkey.1, hkey.2]
      simp only [handleMessage, hw]
      rw [if_pos (show m.replyTo ≠ some prompt from h3)]
      refine ⟨?_, ?_, ?_⟩
      · trivial
      · trivial
      · simp
    · have hne : ((conv, voter) : Nat × Nat) ≠ (m.chatId, m.fromId) := by
        intro hc
        exact hkey ⟨(congrArg Prod.fst hc).symm, (congrArg Prod.snd hc).symm⟩
      have hw : lookupA [((conv, voter), (⟨prompt, tMsg⟩ : PendEntry))] (m.chatId, m.fromId) =
          none := by
        rw [lookupA, if_neg hne]
        rfl
      simp only [handleMessage, hw]
      refine ⟨?_, ?_, ?_⟩
      · trivial
      · trivial
      · simp

/-- C7: A submission whose free text lacks any of the three mandatory
fields (ticket, violation type, reason — witnessed by the corresponding
`grab` coming back empty) parses to no structured result, the handler
answers with the expected-format warning, the registry is unchanged and no
request or reminder is created. -/
theorem c7_malformed_submission (reg : Reg) (chatId newMsgId : Nat) (raw : String)
    (h : grab "Тикет" (trimStr raw) = "" ∨ grab "Нарушение" (trimStr raw) = "" ∨
         grab "Причина" (trimStr raw) = "") :
    parsePayload (trimStr raw) = none ∧
    handleSubmission reg chatId raw newMsgId = ⟨reg, .Malformed, []⟩ := by
  have hp : parsePayload (trimStr raw) = none := by
    rw [parsePayload]
    by_cases he : trimStr raw = ""
    · rw [if_pos he]
    · rw [if_neg he]
      simp only []
      rw [if_pos h]
  exact ⟨hp, by rw [handleSubmission, hp]⟩

/-- A request whose sole configured approver has already approved but
which is still unresolved under `requiredApprovals = 2`. -/
def c8st : RequestState where
  chatId := 7
  ticket := "T1"
  violation := "V1"
  reason := "R1"
  amount := ""
  operator := ""
  approvals := [(1, ⟨1, "alice", "Alice"⟩)]
  voters := [1]
  resolved := false
  rejected := false

def c8reg : Reg := [(5, c8st)]

/-- C8 (counterexample): the claim as stated — a nudge is sent whenever the
request is present and unresolved at fire time — fails: here the request is
registered and unresolved, yet `reminderCheck` sends nothing, because every
configured approver has already approved. -/
theorem c8_reminder_counterexample :
    lookupA c8reg 5 = some c8st ∧ c8st.resolved = false ∧
    reminderCheck ⟨["alice"], 2⟩ c8reg 5 = none := by
  decide

/-- C8 (amended): exactly one reminder check is scheduled per created
request, at creation time, with the fixed 2-hour delay; at fire time no
message is sent when the request is absent, resolved, or — the correction —
when no configured approver is outstanding; otherwise a single nudge naming
the outstanding configured approvers is sent, and nothing further is ever
scheduled. -/
theorem c8_reminder_amended (cfg : Config) (regC : Reg) (chatId newMsgId : Nat)
    (raw : String) (d : Payload) (hp : parsePayload (trimStr raw) = some d)
    (reg : Reg) (m : Nat) :
    (handleSubmission regC chatId raw newMsgId).scheduled = [(newMsgId, PING_TIMEOUT_MS)] ∧
    PING_TIMEOUT_MS = 2 * 60 * 60 * 1000 ∧
    (lookupA reg m = none → reminderCheck cfg reg m = none) ∧
    (∀ st, lookupA reg m = some st → st.resolved = true → reminderCheck cfg reg m = none) ∧
    (∀ st, lookupA reg m = some st → st.resolved = false → pendingApprovers cfg st = [] →
      reminderCheck cfg reg m = none) ∧
    (∀ st, lookupA reg m = some st → st.resolved = false → pendingApprovers cfg st ≠ [] →
      reminderCheck cfg reg m =
        some (makeCardText st none (reminderFooter (pendingApprovers cfg st)))) := by
  refine ⟨?_, rfl, ?_, ?_, ?_, ?_⟩
  · rw [handleSubmission, hp]
  · intro hnone
    simp only [reminderCheck, hnone]
  · intro st hst hres
    simp only [reminderCheck, hst, hres]
    rfl
  · intro st hst hres hpend
    simp only [reminderCheck, hst, hres]
    simp [hpend]
  · intro st hst hres hpend
    simp only [reminderCheck, hst, hres]
    simp [hpend]

/-- C9: With a non-empty configured allow-list, a vote on an unresolved
registered request by a user whose profile has no username is signalled
`Unauthorized` with no state change: the missing username is read as the
empty string, which the allow-list — built by splitting, trimming and
filtering out empties — can never contain. -/
theorem c9_no_username_unauthorized (raw : String) (cfg : Config)
    (hcfg : cfg.approvers = mkApproverList raw) (hne : cfg.approvers ≠ [])
    (s : Sys) (chatId m promptMsgId year month : Nat) (nowStr : String) (appendOk : Bool)
    (u : User) (hu : u.username = none) (kind : VoteKind) (st : RequestState)
    (hl : lookupA s.reg m = some st) (hres : st.resolved = false) :
    "" ∉ cfg.approvers ∧
    castVote cfg year month nowStr appendOk promptMsgId s.reg s.pend chatId m u kind =
      ⟨s.reg, s.pend, .Unauthorized, [], false⟩ := by
  have hnot : "" ∉ cfg.approvers := by
    rw [hcfg, mkApproverList]
    intro hmem
    have := List.of_mem_filter hmem
    simp at this
  refine ⟨hnot, ?_⟩
  refine castVote_unauthorized cfg year month nowStr appendOk promptMsgId s.reg s.pend chatId
    m u kind st hl hres ⟨hne, ?_⟩
  rw [hu]
  exact hnot

/-- C10: the pending-comment map keeps at most one entry per (conversation,
voter): a second accepted reject by the same voter in the same conversation
overwrites the earlier correlation, and from then on no event — in
particular no reply to the first prompt — can change the first request's
entry (its rejection reason included) or make any correlation reference it
again. -/
theorem c10_pending_overwrite (cfg : Config) (s : Sys) (c p1 p2 t1 t2 year month : Nat)
    (nowStr : String) (appendOk : Bool) (u : User)
    (hnd : (s.pend.map Prod.fst).Nodup)
    (hold : lookupA s.pend (c, u.id) = some ⟨p1, t1⟩)
    (honly : ∀ kv ∈ s.pend, kv.2.ticketMsgId = t1 → kv.1 = (c, u.id))
    (st1 : RequestState) (h1 : lookupA s.reg t1 = some st1) (hres1 : st1.resolved = true)
    (st2 : RequestState) (h2 : lookupA s.reg t2 = some st2) (hres2 : st2.resolved = false)
    (hauth : ¬ (cfg.approvers ≠ [] ∧ u.username.getD "" ∉ cfg.approvers))
    (hvoted : u.id ∉ st2.voters) :
    t2 ≠ t1 ∧
    lookupA (castVote cfg year month nowStr appendOk p2 s.reg s.pend c t2 u .reject).pend
      (c, u.id) = some ⟨p2, t2⟩ ∧
    noPendFor t1 (castVote cfg year month nowStr appendOk p2 s.reg s.pend c t2 u
      .reject).pend ∧
    ∀ evs : List Event,
      lookupA (runSys cfg
        ⟨(castVote cfg year month nowStr appendOk p2 s.reg s.pend c t2 u .reject).reg,
          (castVote cfg year month nowStr appendOk p2 s.reg s.pend c t2 u .reject).pend⟩
        evs).reg t1 = some st1 ∧
      noPendFor t1 (runSys cfg
        ⟨(castVote cfg year month nowStr appendOk p2 s.reg s.pend c t2 u .reject).reg,
          (castVote cfg year month nowStr appendOk p2 s.reg s.pend c t2 u .reject).pend⟩
        evs).pend := by
  have hne : t2 ≠ t1 := by
    intro hc
    subst hc
    rw [h1] at h2
    obtain rfl := Option.some.inj h2
    rw [hres1] at hres2
    cases hres2
  rw [castVote_reject cfg year month nowStr appendOk p2 s.reg s.pend c t2 u st2 h2 hres2
    hauth hvoted]
  have hnp : noPendFor t1 (setA s.pend (c, u.id) ⟨p2, t2⟩) := by
    intro kv hkv
    rcases mem_setA_of_nodup hnd hkv with hx | ⟨hin, hkne⟩
    · subst hx
      exact hne
    · intro href
      exact hkne (honly kv hin href)
  have hl1 : lookupA (setA s.reg t2 { st2 with
      voters := st2.voters ++ [u.id]
      rejected := true
      resolved := true }) t1 = some st1 := by
    rw [lookupA_setA_ne _ _ _ _ (Ne.symm hne)]
    exact h1
  refine ⟨hne, lookupA_setA_self _ _ _, hnp, ?_⟩
  intro evs
  exact runSys_frozen cfg evs ⟨_, _⟩ t1 st1 hl1 hres1 hnp

/-! ### Concrete fixtures for the witnesses -/

def userA : User := ⟨1, some "alice", "Alice", ""⟩

def userB : User := ⟨2, some "bob", "Bob", ""⟩

def userC : User := ⟨3, none, "Carol", ""⟩

def cfgW : Config := ⟨["alice", "bob"], 2⟩

def stW : RequestState := freshState 7 ⟨"T1", "V1", "R1", "", ""⟩

def sysW : Sys := ⟨[(10, stW)], []⟩

def stWr : RequestState := { stW with resolved := true }

def sysWr : Sys := ⟨[(11, stWr)], []⟩

def evW : VoteEv := ⟨7, 11, userA, .approve, 99, true, 2026, 1, "date"⟩

def evW3 : VoteEv := ⟨7, 10, userA, .reject, 99, true, 2026, 1, "date"⟩

def sysW5 : Sys := ⟨c8reg, []⟩

def st10a : RequestState := { stW with resolved := true, rejected := true }

def sys10 : Sys := ⟨[(20, st10a), (21, stW)], [((7, 1), ⟨70, 20⟩)]⟩

def rawW : String := "Тикет: T1\nНарушение: V1\nПричина: R1"

def regW6 : Reg := [(10, stW)]

def pendW : Pend := [((7, 1), ⟨55, 10⟩)]

def msgW : IncomingMsg := ⟨7, 1, 60, some 55, " нет оснований "⟩

/-- Witness for C1 at a concrete fresh request with quorum two. -/
theorem c1_quorum_transition_witness :
    (1 ≤ cfgW.required ∧ lookupA sysW.reg 10 = some stW ∧ stW.approvals = [] ∧
      stW.resolved = false ∧ stW.rejected = false) ∧
    ((∀ st, lookupA (runVotes cfgW sysW []).reg 10 = some st →
        st.resolved = (decide (cfgW.required ≤ st.approvals.length) || st.rejected) ∧
        (st.approvals.map Prod.fst).Nodup) ∧
     (∀ (e : VoteEv) (st : RequestState), e.msgId = 10 →
        lookupA (runVotes cfgW sysW []).reg 10 = some st →
        ((voteStepFull cfgW (runVotes cfgW sysW []) e).outcome = .QuorumReached ↔
          (st.approvals.length < cfgW.required ∧
            ∃ st', lookupA (voteStep cfgW (runVotes cfgW sysW []) e).reg 10 = some st' ∧
              cfgW.required ≤ st'.approvals.length)))) :=
  ⟨⟨by decide, by decide, by decide, by decide, by decide⟩,
    c1_quorum_transition cfgW (by decide) sysW 10 stW (by decide) (by decide) (by decide)
      (by decide) []⟩

/-- Witness for C2 at a concrete resolved request. -/
theorem c2_resolved_vote_noop_witness :
    evW.msgId = 11 ∧
    ((∀ st, lookupA sysWr.reg 11 = some st → st.resolved = true →
        voteStep cfgW sysWr evW = sysWr ∧ (voteStepFull cfgW sysWr evW).outcome = .Ignored ∧
        (voteStepFull cfgW sysWr evW).appends = []) ∧
     (lookupA sysWr.reg 11 = none →
        voteStep cfgW sysWr evW = sysWr ∧ (voteStepFull cfgW sysWr evW).outcome = .Ignored ∧
        (voteStepFull cfgW sysWr evW).appends = []) ∧
     (∀ (e' : VoteEv) (st : RequestState), lookupA sysWr.reg 11 = some st →
        st.resolved = true → ∀ st', lookupA (voteStep cfgW sysWr e').reg 11 = some st' →
          st' = st ∧ st'.resolved = true)) :=
  ⟨rfl, c2_resolved_vote_noop cfgW sysWr 11 evW rfl⟩

/-- Witness for C3 at a concrete authorized first-time reject. -/
theorem c3_reject_blocks_witness :
    (evW3.kind = .reject ∧ lookupA sysW.reg evW3.msgId = some stW ∧ stW.resolved = false ∧
      ¬ (cfgW.approvers ≠ [] ∧ evW3.user.username.getD "" ∉ cfgW.approvers) ∧
      evW3.user.id ∉ stW.voters) ∧
    ((voteStepFull cfgW sysW evW3).outcome = .RejectRecorded ∧
     ∃ st', lookupA (voteStep cfgW sysW evW3).reg evW3.msgId = some st' ∧
       st'.resolved = true ∧ st'.rejected = true ∧ st'.approvals = stW.approvals ∧
       ∀ evs : List VoteEv,
         lookupA (runVotes cfgW (voteStep cfgW sysW evW3) evs).reg evW3.msgId = some st' ∧
         appendsFor evW3.msgId (runVotesLog cfgW (voteStep cfgW sysW evW3) evs) = []) :=
  ⟨⟨by decide, by decide, by decide, by decide, by decide⟩,
    c3_reject_blocks cfgW sysW evW3 stW (by decide) (by decide) (by decide) (by decide)
      (by decide)⟩

/-- Witness for C4: alice then bob approve a fresh request with quorum two. -/
theorem c4_two_approvals_witness :
    (cfgW.required = 2 ∧ lookupA sysW.reg 10 = some stW ∧ stW.approvals = [] ∧
      stW.voters = [] ∧ stW.resolved = false ∧ userA.id ≠ userB.id ∧
      ¬ (cfgW.approvers ≠ [] ∧ userA.username.getD "" ∉ cfgW.approvers) ∧
      ¬ (cfgW.approvers ≠ [] ∧ userB.username.getD "" ∉ cfgW.approvers)) ∧
    ((castVote cfgW 2026 1 "d1" true 91 sysW.reg sysW.pend 7 10 userA .approve).outcome =
        .ApprovalRecorded "1/2" ∧
     (castVote cfgW 2026 1 "d1" true 91 sysW.reg sysW.pend 7 10 userA .approve).appends = [] ∧
     (castVote cfgW 2026 2 "d2" false 92
        (castVote cfgW 2026 1 "d1" true 91 sysW.reg sysW.pend 7 10 userA .approve).reg
        (castVote cfgW 2026 1 "d1" true 91 sysW.reg sysW.pend 7 10 userA .approve).pend
        7 10 userB .approve).outcome = .QuorumReached ∧
     (∃ rec, (castVote cfgW 2026 2 "d2" false 92
        (castVote cfgW 2026 1 "d1" true 91 sysW.reg sysW.pend 7 10 userA .approve).reg
        (castVote cfgW 2026 1 "d1" true 91 sysW.reg sysW.pend 7 10 userA .approve).pend
        7 10 userB .approve).appends = [(10, rec)] ∧
       rec.approvedBy = String.intercalate ", "
         [displayName (profileOf userA), displayName (profileOf userB)] ∧
       rec.status = "Одобрено" ∧
       rec.sheet = monthSheetName 2026 2) ∧
     (∀ evs : List VoteEv, appendsFor 10 (runVotesLog cfgW
        ⟨(castVote cfgW 2026 2 "d2" false 92
            (castVote cfgW 2026 1 "d1" true 91 sysW.reg sysW.pend 7 10 userA .approve).reg
            (castVote cfgW 2026 1 "d1" true 91 sysW.reg sysW.pend 7 10 userA .approve).pend
            7 10 userB .approve).reg,
          (castVote cfgW 2026 2 "d2" false 92
            (castVote cfgW 2026 1 "d1" true 91 sysW.reg sysW.pend 7 10 userA .approve).reg
            (castVote cfgW 2026 1 "d1" true 91 sysW.reg sysW.pend 7 10 userA .approve).pend
            7 10 userB .approve).pend⟩ evs) = []) ∧
     (∀ (year month : Nat) (nowStr : String) (appendOk : Bool) (promptMsgId : Nat)
         (reg : Reg) (pend : Pend) (chatId msgId : Nat) (u : User) (kind : VoteKind),
       (castVote cfgW year month nowStr appendOk promptMsgId reg pend chatId msgId u
           kind).appends ≠ [] ↔
       (castVote cfgW year month nowStr appendOk promptMsgId reg pend chatId msgId u
           kind).outcome = .QuorumReached)) :=
  ⟨⟨by decide, by decide, by decide, by decide, by decide, by decide, by decide, by decide⟩,
    c4_two_approvals cfgW (by decide) sysW 10 stW (by decide) (by decide) (by decide)
      (by decide) userA userB (by decide) (by decide) (by decide)
      7 7 91 92 2026 1 2026 2 "d1" "d2" true false⟩

/-- Witness for C5: bob's approval reaches quorum on a request already
holding alice's approval; the failing and succeeding appends agree. -/
theorem c5_append_failure_witness :
    (lookupA sysW5.reg 5 = some c8st ∧ c8st.resolved = false ∧
      ¬ (cfgW.approvers ≠ [] ∧ userB.username.getD "" ∉ cfgW.approvers) ∧
      userB.id ∉ c8st.voters ∧ cfgW.required ≤ c8st.approvals.length + 1) ∧
    ((castVote cfgW 2026 1 "d" false 99 sysW5.reg sysW5.pend 7 5 userB .approve).reg =
      (castVote cfgW 2026 1 "d" true 99 sysW5.reg sysW5.pend 7 5 userB .approve).reg ∧
     (castVote cfgW 2026 1 "d" false 99 sysW5.reg sysW5.pend 7 5 userB .approve).pend =
      (castVote cfgW 2026 1 "d" true 99 sysW5.reg sysW5.pend 7 5 userB .approve).pend ∧
     (castVote cfgW 2026 1 "d" false 99 sysW5.reg sysW5.pend 7 5 userB .approve).outcome =
      (castVote cfgW 2026 1 "d" true 99 sysW5.reg sysW5.pend 7 5 userB .approve).outcome ∧
     (castVote cfgW 2026 1 "d" false 99 sysW5.reg sysW5.pend 7 5 userB .approve).appends =
      (castVote cfgW 2026 1 "d" true 99 sysW5.reg sysW5.pend 7 5 userB .approve).appends ∧
     (castVote cfgW 2026 1 "d" false 99 sysW5.reg sysW5.pend 7 5 userB
        .approve).errorReported = true ∧
     (castVote cfgW 2026 1 "d" true 99 sysW5.reg sysW5.pend 7 5 userB
        .approve).errorReported = false ∧
     (castVote cfgW 2026 1 "d" false 99 sysW5.reg sysW5.pend 7 5 userB
        .approve).appends.length = 1 ∧
     (∃ st', lookupA (castVote cfgW 2026 1 "d" false 99 sysW5.reg sysW5.pend 7 5 userB
          .approve).reg 5 = some st' ∧ st'.resolved = true ∧
       ∀ evs : List VoteEv,
         lookupA (runVotes cfgW
           ⟨(castVote cfgW 2026 1 "d" false 99 sysW5.reg sysW5.pend 7 5 userB .approve).reg,
             (castVote cfgW 2026 1 "d" false 99 sysW5.reg sysW5.pend 7 5 userB
               .approve).pend⟩ evs).reg 5 = some st' ∧
         appendsFor 5 (runVotesLog cfgW
           ⟨(castVote cfgW 2026 1 "d" false 99 sysW5.reg sysW5.pend 7 5 userB .approve).reg,
             (castVote cfgW 2026 1 "d" false 99 sysW5.reg sysW5.pend 7 5 userB
               .approve).pend⟩ evs) = [])) :=
  ⟨⟨by decide, by decide, by decide, by decide, by decide⟩,
    c5_append_failure cfgW sysW5 7 5 99 2026 1 "d" userB c8st (by decide) (by decide)
      (by decide) (by decide) (by decide)⟩

/-- Witness for C6 at a concrete correlation entry and a matching reply. -/
theorem c6_reply_correlation_witness :
    (lookupA regW6 10 = some stW ∧ pendW = [((7, 1), ⟨55, 10⟩)]) ∧
    (((msgW.chatId = 7 ∧ msgW.fromId = 1 ∧ msgW.replyTo = some 55) →
      (handleMessage regW6 pendW msgW).outcome = .Finalized (trimStr msgW.text) ∧
      lookupA (handleMessage regW6 pendW msgW).reg 10 =
        some { stW with rejectComment := some (trimStr msgW.text) } ∧
      (handleMessage regW6 pendW msgW).pend = []) ∧
     (¬ (msgW.chatId = 7 ∧ msgW.fromId = 1 ∧ msgW.replyTo = some 55) →
      (handleMessage regW6 pendW msgW).reg = regW6 ∧
      (handleMessage regW6 pendW msgW).pend = pendW ∧
      ∀ c, (handleMessage regW6 pendW msgW).outcome ≠ .Finalized c)) :=
  ⟨⟨by decide, rfl⟩,
    c6_reply_correlation regW6 7 1 55 10 stW (by decide) pendW rfl msgW⟩

/-- Witness for C7 at a submission missing the violation and reason fields. -/
theorem c7_malformed_submission_witness :
    (grab "Тикет" (trimStr "Тикет: T1") = "" ∨ grab "Нарушение" (trimStr "Тикет: T1") = "" ∨
      grab "Причина" (trimStr "Тикет: T1") = "") ∧
    (parsePayload (trimStr "Тикет: T1") = none ∧
      handleSubmission [] 7 "Тикет: T1" 10 = ⟨[], .Malformed, []⟩) :=
  ⟨by decide, c7_malformed_submission [] 7 10 "Тикет: T1" (by decide)⟩

/-- Witness for C8 (amended) at a well-formed submission and the registry
of the counterexample. -/
theorem c8_reminder_amended_witness :
    (parsePayload (trimStr rawW) = some ⟨"T1", "V1", "R1", "", ""⟩) ∧
    ((handleSubmission [] 7 rawW 10).scheduled = [(10, PING_TIMEOUT_MS)] ∧
     PING_TIMEOUT_MS = 2 * 60 * 60 * 1000 ∧
     (lookupA c8reg 5 = none → reminderCheck cfgW c8reg 5 = none) ∧
     (∀ st, lookupA c8reg 5 = some st → st.resolved = true →
        reminderCheck cfgW c8reg 5 = none) ∧
     (∀ st, lookupA c8reg 5 = some st → st.resolved = false →
        pendingApprovers cfgW st = [] → reminderCheck cfgW c8reg 5 = none) ∧
     (∀ st, lookupA c8reg 5 = some st → st.resolved = false →
        pendingApprovers cfgW st ≠ [] → reminderCheck cfgW c8reg 5 =
          some (makeCardText st none (reminderFooter (pendingApprovers cfgW st))))) :=
  ⟨by decide,
    c8_reminder_amended cfgW [] 7 10 rawW ⟨"T1", "V1", "R1", "", ""⟩ (by decide) c8reg 5⟩

/-- Witness for C9: a voter without a username against the configured
allow-list parsed from a raw environment string. -/
theorem c9_no_username_unauthorized_witness :
    (cfgW.approvers = mkApproverList "alice, bob" ∧ cfgW.approvers ≠ [] ∧
      userC.username = none ∧ lookupA sysW.reg 10 = some stW ∧ stW.resolved = false) ∧
    ("" ∉ cfgW.approvers ∧
      castVote cfgW 2026 1 "d" true 99 sysW.reg sysW.pend 7 10 userC .approve =
        ⟨sysW.reg, sysW.pend, .Unauthorized, [], false⟩) :=
  ⟨⟨by decide, by decide, by decide, by decide, by decide⟩,
    c9_no_username_unauthorized "alice, bob" cfgW (by decide) (by decide) sysW 7 10 99 2026 1
      "d" true userC (by decide) .approve stW (by decide) (by decide)⟩

/-- Witness for C10: alice rejects a second request in the same chat while
her first rejection is still awaiting its comment. -/
theorem c10_pending_overwrite_witness :
    ((sys10.pend.map Prod.fst).Nodup ∧
      lookupA sys10.pend (7, userA.id) = some ⟨70, 20⟩ ∧
      (∀ kv ∈ sys10.pend, kv.2.ticketMsgId = 20 → kv.1 = (7, userA.id)) ∧
      lookupA sys10.reg 20 = some st10a ∧ st10a.resolved = true ∧
      lookupA sys10.reg 21 = some stW ∧ stW.resolved = false ∧
      ¬ (cfgW.approvers ≠ [] ∧ userA.username.getD "" ∉ cfgW.approvers) ∧
      userA.id ∉ stW.voters) ∧
    ((21 : Nat) ≠ 20 ∧
     lookupA (castVote cfgW 2026 1 "d" true 71 sys10.reg sys10.pend 7 21 userA .reject).pend
       (7, userA.id) = some ⟨71, 21⟩ ∧
     noPendFor 20 (castVote cfgW 2026 1 "d" true 71 sys10.reg sys10.pend 7 21 userA
       .reject).pend ∧
     ∀ evs : List Event,
       lookupA (runSys cfgW
         ⟨(castVote cfgW 2026 1 "d" true 71 sys10.reg sys10.pend 7 21 userA .reject).reg,
           (castVote cfgW 2026 1 "d" true 71 sys10.reg sys10.pend 7 21 userA .reject).pend⟩
         evs).reg 20 = some st10a ∧
       noPendFor 20 (runSys cfgW
         ⟨(castVote cfgW 2026 1 "d" true 71 sys10.reg sys10.pend 7 21 userA .reject).reg,
           (castVote cfgW 2026 1 "d" true 71 sys10.reg sys10.pend 7 21 userA .reject).pend⟩
         evs).pend) :=
  ⟨⟨by decide, by decide, by decide, by decide, by decide, by decide, by decide, by decide,
      by decide⟩,
    c10_pending_overwrite cfgW sys10 7 70 71 20 21 2026 1 "d" true userA (by decide)
      (by decide) (by decide) st10a (by decide) (by decide) stW (by decide) (by decide)
      (by decide) (by decide)⟩

end AnnulBot
